import Mathlib

/- Shallow embedding of the FacilMap synchronization core.
   Sources:
   - src/server/lib/databaseBackendSequelize.js (geometry store, bbox
     conditions, line point queries, setLinePoints),
   - src/server/lib/database.js (mutation wrappers with listener fan-out),
   - src/unnamed/part_000 (the socket client with its local reconciler).
   Latitudes and longitudes are modelled as rationals, row sets as lists. -/

/-- TrackPoint row of the LinePoint model: lat, lon, zoom (the minimum zoom at
which the point is rendered), idx (its position in the full geometry) and an
optional elevation. -/
structure TrackPoint where
  lat : ℚ
  lon : ℚ
  zoom : ℕ
  idx : ℕ
  ele : Option ℤ := none
  deriving DecidableEq

/-- Bbox as consumed by the bbox condition: top, bottom, left, right. -/
structure Bbox where
  top : ℚ
  bottom : ℚ
  left : ℚ
  right : ℚ
  deriving DecidableEq

/-- Bbox together with the zoom bound of the query. -/
structure BboxWithZoom extends Bbox where
  zoom : ℕ
  deriving DecidableEq

/-- Bbox with zoom and an optional except sub-bbox used by differential
viewport fills. -/
structure BboxWithExcept extends BboxWithZoom where
  except : Option Bbox := none
  deriving DecidableEq

/-- Inclusion part of the bbox condition (databaseBackendSequelize.js, lines
542 to 548): the latitude band test, and the longitude test where a bbox with
right < left spans lon = 180 and the test becomes a disjunction. -/
def condLatLon (b : Bbox) (lat lon : ℚ) : Bool :=
  (decide (lat ≤ b.top) && decide (b.bottom ≤ lat)) &&
    (if b.right < b.left then decide (b.left ≤ lon) || decide (lon ≤ b.right)
     else decide (b.left ≤ lon) && decide (lon ≤ b.right))

/-- Exclusion part of the bbox condition (databaseBackendSequelize.js, lines
550 to 559): a point is kept when it lies outside the except latitude band on
either side, or outside the except longitude range, with the wraparound logic
mirrored from the inclusion test. -/
def condExcept (e : Bbox) (lat lon : ℚ) : Bool :=
  (decide (e.top < lat) || decide (lat < e.bottom)) ||
    (if e.right < e.left then decide (lon < e.left) && decide (e.right < lon)
     else decide (lon < e.left) || decide (e.right < lon))

/-- makeBboxCondition (databaseBackendSequelize.js, lines 530 to 562) as a
predicate on a point: a missing bbox matches everything; otherwise the
inclusion tests must hold and, when an except bbox is given, the exclusion
test as well. -/
def makeBboxCondition (bbox : Option BboxWithExcept) (lat lon : ℚ) : Bool :=
  match bbox with
  | none => true
  | some b =>
    condLatLon b.toBbox lat lon &&
      (match b.except with
       | none => true
       | some e => condExcept e lat lon)

/-- Ordering used by the order-by-idx clause of the line point queries. -/
def idxLe (a b : TrackPoint) : Prop := a.idx ≤ b.idx

instance : DecidableRel idxLe := fun a b => inferInstanceAs (Decidable (a.idx ≤ b.idx))

instance : IsTotal TrackPoint idxLe := ⟨fun a b => Nat.le_total a.idx b.idx⟩

instance : IsTrans TrackPoint idxLe := ⟨fun _ _ _ => Nat.le_trans⟩

/-- getLinePointsByBbox (databaseBackendSequelize.js, lines 503 to 509): the
stored points of one line filtered by makeBboxCondition and by zoom at most
bbox.zoom, ordered by idx. The stored rows of the line are a list. -/
def getLinePointsByBbox (linePoints : List TrackPoint) (bbox : Option BboxWithExcept) :
    List TrackPoint :=
  List.insertionSort idxLe (linePoints.filter (fun p =>
    makeBboxCondition bbox p.lat p.lon &&
      (match bbox with
       | none => true
       | some b => decide (p.zoom ≤ b.zoom))))

lemma condLatLon_iff (b : Bbox) (lat lon : ℚ) :
    condLatLon b lat lon = true ↔
      ((lat ≤ b.top ∧ b.bottom ≤ lat) ∧
        (if b.right < b.left then b.left ≤ lon ∨ lon ≤ b.right
         else b.left ≤ lon ∧ lon ≤ b.right)) := by
  unfold condLatLon
  split <;> simp

lemma condExcept_iff_not (e : Bbox) (lat lon : ℚ) :
    condExcept e lat lon = true ↔ ¬ condLatLon e lat lon = true := by
  rw [condLatLon_iff]
  unfold condExcept
  by_cases h : e.right < e.left <;>
    simp only [h, if_true, if_false, Bool.or_eq_true, Bool.and_eq_true,
      decide_eq_true_eq, not_and_or, not_or, not_le, not_lt]

lemma mem_getLinePointsByBbox (linePoints : List TrackPoint) (b : BboxWithExcept)
    (p : TrackPoint) :
    p ∈ getLinePointsByBbox linePoints (some b) ↔
      p ∈ linePoints ∧ makeBboxCondition (some b) p.lat p.lon = true ∧ p.zoom ≤ b.zoom := by
  unfold getLinePointsByBbox
  rw [(List.perm_insertionSort idxLe _).mem_iff, List.mem_filter]
  simp [and_assoc]

lemma sorted_getLinePointsByBbox (linePoints : List TrackPoint) (bbox : Option BboxWithExcept) :
    (getLinePointsByBbox linePoints bbox).Sorted idxLe :=
  List.sorted_insertionSort idxLe _

/-- Pointwise containment between the point sets of two bboxes, with both
interpreted through the inclusion test of the code (so an antimeridian
spanning bbox denotes the union of its two longitude intervals). -/
def bboxSubset (b1 b2 : Bbox) : Prop :=
  ∀ lat lon : ℚ, condLatLon b1 lat lon = true → condLatLon b2 lat lon = true

lemma condLatLon_mono_nonwrap (b1 b2 : Bbox)
    (hb1 : b1.left ≤ b1.right) (hb2 : b2.left ≤ b2.right)
    (ht : b1.top ≤ b2.top) (hb : b2.bottom ≤ b1.bottom)
    (hl : b2.left ≤ b1.left) (hr : b1.right ≤ b2.right) :
    bboxSubset b1 b2 := by
  intro lat lon h
  rw [condLatLon_iff] at h ⊢
  rw [if_neg (not_lt.mpr hb1)] at h
  rw [if_neg (not_lt.mpr hb2)]
  exact ⟨⟨h.1.1.trans ht, hb.trans h.1.2⟩, hl.trans h.2.1, h.2.2.trans hr⟩

lemma condLatLon_mono_wrap (b1 b2 : Bbox)
    (hb1 : b1.right < b1.left) (hb2 : b2.right < b2.left)
    (ht : b1.top ≤ b2.top) (hb : b2.bottom ≤ b1.bottom)
    (hl : b2.left ≤ b1.left) (hr : b1.right ≤ b2.right) :
    bboxSubset b1 b2 := by
  intro lat lon h
  rw [condLatLon_iff] at h ⊢
  rw [if_pos hb1] at h
  rw [if_pos hb2]
  refine ⟨⟨h.1.1.trans ht, hb.trans h.1.2⟩, ?_⟩
  rcases h.2 with h2 | h2
  · exact Or.inl (hl.trans h2)
  · exact Or.inr (h2.trans hr)

/-- C3: for every point and every bbox with right < left, the bbox condition
holds iff the latitude lies in the band and the longitude is at least left or
at most right; in particular the bbox with left = 170 and right = -170 matches
a point at lon = 179 and one at lon = -179 and rejects one at lon = 0. -/
theorem antimeridian_bbox_matches (b : Bbox) (lat lon : ℚ) (hw : b.right < b.left) :
    (condLatLon b lat lon = true ↔
      ((b.bottom ≤ lat ∧ lat ≤ b.top) ∧ (b.left ≤ lon ∨ lon ≤ b.right))) ∧
    condLatLon ⟨10, -10, 170, -170⟩ 0 179 = true ∧
    condLatLon ⟨10, -10, 170, -170⟩ 0 (-179) = true ∧
    condLatLon ⟨10, -10, 170, -170⟩ 0 0 = false := by
  refine ⟨?_, by decide, by decide, by decide⟩
  rw [condLatLon_iff, if_pos hw]
  tauto

/-- C3 witness: the characterization applied to the antimeridian bbox of the
spec at the point lat = 0, lon = 179. -/
theorem antimeridian_bbox_matches_witness :
    (condLatLon ⟨10, -10, 170, -170⟩ 0 179 = true ↔
      ((((-10 : ℚ) ≤ 0 ∧ (0 : ℚ) ≤ 10) ∧ ((170 : ℚ) ≤ 179 ∨ (179 : ℚ) ≤ -170)))) ∧
    condLatLon ⟨10, -10, 170, -170⟩ 0 179 = true ∧
    condLatLon ⟨10, -10, 170, -170⟩ 0 (-179) = true ∧
    condLatLon ⟨10, -10, 170, -170⟩ 0 0 = false :=
  antimeridian_bbox_matches ⟨10, -10, 170, -170⟩ 0 179 (by decide)

/-- C1: for every line, zoom and pair of bboxes with the old one contained in
the new one, the differential query over the new bbox with except = old,
together with the plain query over the old bbox, returns exactly the plain
query over the new bbox; and the differential query returns no point lying
inside the old bbox. -/
theorem exceptQuery_partitions_newQuery (line : List TrackPoint) (z : ℕ) (oldB newB : Bbox)
    (hsub : bboxSubset oldB newB) :
    (∀ p : TrackPoint,
        (p ∈ getLinePointsByBbox line (some { toBbox := newB, zoom := z, except := some oldB }) ∨
          p ∈ getLinePointsByBbox line (some { toBbox := oldB, zoom := z, except := none })) ↔
        p ∈ getLinePointsByBbox line (some { toBbox := newB, zoom := z, except := none })) ∧
    (∀ p : TrackPoint,
        p ∈ getLinePointsByBbox line (some { toBbox := newB, zoom := z, except := some oldB }) →
          condLatLon oldB p.lat p.lon = false) := by
  constructor
  · intro p
    rw [mem_getLinePointsByBbox, mem_getLinePointsByBbox, mem_getLinePointsByBbox]
    simp only [makeBboxCondition, Bool.and_eq_true, condExcept_iff_not]
    constructor
    · rintro (⟨hm, ⟨hnew, hnot⟩, hz⟩ | ⟨hm, ⟨hold, _⟩, hz⟩)
      · exact ⟨hm, ⟨hnew, trivial⟩, hz⟩
      · exact ⟨hm, ⟨hsub p.lat p.lon hold, trivial⟩, hz⟩
    · rintro ⟨hm, ⟨hnew, _⟩, hz⟩
      by_cases hold : condLatLon oldB p.lat p.lon = true
      · exact Or.inr ⟨hm, ⟨hold, trivial⟩, hz⟩
      · exact Or.inl ⟨hm, ⟨hnew, hold⟩, hz⟩
  · intro p hp
    rw [mem_getLinePointsByBbox] at hp
    rcases hp with ⟨_, hcond, _⟩
    simp only [makeBboxCondition, Bool.and_eq_true, condExcept_iff_not] at hcond
    exact Bool.not_eq_true _ ▸ hcond.2

/-- C1 witness: a three point line and the concrete bboxes old = (5,-5,-5,5)
inside new = (10,-10,-10,10) at zoom 14; one point sits inside old, one in new
but outside old, one outside new. -/
theorem exceptQuery_partitions_newQuery_witness :
    (∀ p : TrackPoint,
        (p ∈ getLinePointsByBbox
            [⟨0, 0, 1, 0, none⟩, ⟨7, 7, 2, 1, none⟩, ⟨50, 50, 3, 2, none⟩]
            (some { toBbox := ⟨10, -10, -10, 10⟩, zoom := 14, except := some ⟨5, -5, -5, 5⟩ }) ∨
          p ∈ getLinePointsByBbox
            [⟨0, 0, 1, 0, none⟩, ⟨7, 7, 2, 1, none⟩, ⟨50, 50, 3, 2, none⟩]
            (some { toBbox := ⟨5, -5, -5, 5⟩, zoom := 14, except := none })) ↔
        p ∈ getLinePointsByBbox
            [⟨0, 0, 1, 0, none⟩, ⟨7, 7, 2, 1, none⟩, ⟨50, 50, 3, 2, none⟩]
            (some { toBbox := ⟨10, -10, -10, 10⟩, zoom := 14, except := none })) ∧
    (∀ p : TrackPoint,
        p ∈ getLinePointsByBbox
            [⟨0, 0, 1, 0, none⟩, ⟨7, 7, 2, 1, none⟩, ⟨50, 50, 3, 2, none⟩]
            (some { toBbox := ⟨10, -10, -10, 10⟩, zoom := 14, except := some ⟨5, -5, -5, 5⟩ }) →
          condLatLon ⟨5, -5, -5, 5⟩ p.lat p.lon = false) :=
  exceptQuery_partitions_newQuery
    [⟨0, 0, 1, 0, none⟩, ⟨7, 7, 2, 1, none⟩, ⟨50, 50, 3, 2, none⟩] 14
    ⟨5, -5, -5, 5⟩ ⟨10, -10, -10, 10⟩
    (condLatLon_mono_nonwrap ⟨5, -5, -5, 5⟩ ⟨10, -10, -10, 10⟩
      (by decide) (by decide) (by decide) (by decide) (by decide) (by decide))

/-- C4: the line point query is monotone in the bbox: whenever the point set
of b1 is contained in the point set of b2 (antimeridian spanning bboxes read
as unions of longitude intervals), every point returned for b1 at a zoom is
also returned for b2 at the same zoom. -/
theorem queryPoints_monotone_in_bbox (line : List TrackPoint) (z : ℕ) (b1 b2 : Bbox)
    (hsub : bboxSubset b1 b2) :
    ∀ p : TrackPoint,
      p ∈ getLinePointsByBbox line (some { toBbox := b1, zoom := z, except := none }) →
        p ∈ getLinePointsByBbox line (some { toBbox := b2, zoom := z, except := none }) := by
  intro p hp
  rw [mem_getLinePointsByBbox] at hp ⊢
  simp only [makeBboxCondition, Bool.and_eq_true] at hp ⊢
  exact ⟨hp.1, ⟨hsub p.lat p.lon hp.2.1.1, trivial⟩, hp.2.2⟩

/-- C4 witness: two antimeridian spanning bboxes, b1 = (10,-10,175,-175)
inside b2 = (20,-20,170,-170), and a line with points on both sides of
lon = 180: the point at lon = 178 returned for b1 at zoom 12 is also returned
for b2. -/
theorem queryPoints_monotone_in_bbox_witness :
    (⟨0, 178, 1, 0, none⟩ : TrackPoint) ∈ getLinePointsByBbox
      [⟨0, 178, 1, 0, none⟩, ⟨0, -178, 2, 1, none⟩, ⟨0, 0, 3, 2, none⟩]
      (some { toBbox := ⟨20, -20, 170, -170⟩, zoom := 12, except := none }) :=
  queryPoints_monotone_in_bbox
    [⟨0, 178, 1, 0, none⟩, ⟨0, -178, 2, 1, none⟩, ⟨0, 0, 3, 2, none⟩] 12
    ⟨10, -10, 175, -175⟩ ⟨20, -20, 170, -170⟩
    (condLatLon_mono_wrap ⟨10, -10, 175, -175⟩ ⟨20, -20, 170, -170⟩
      (by decide) (by decide) (by decide) (by decide) (by decide) (by decide))
    ⟨0, 178, 1, 0, none⟩ (by decide)

/-- Filter of getLinePointsForPad (databaseBackendSequelize.js, lines 885 to
897): all stored points whose line belongs to the pad, with zoom at most the
query zoom and matching the bbox condition. The LinePoint table is modelled as
a list of pairs of a line id and a point. -/
def matchingPadPoints (store : List (ℕ × TrackPoint)) (padLineIds : List ℕ)
    (b : BboxWithExcept) : List (ℕ × TrackPoint) :=
  store.filter (fun e =>
    decide (e.2.zoom ≤ b.zoom) && decide (e.1 ∈ padLineIds) &&
      makeBboxCondition (some b) e.2.lat e.2.lon)

/-- getLinePointsForPad (databaseBackendSequelize.js, lines 881 to 904): the
matching points grouped by line id (lodash groupBy followed by
Object.entries, whose integer keys iterate in ascending order). -/
def getLinePointsForPad (store : List (ℕ × TrackPoint)) (padLineIds : List ℕ)
    (b : BboxWithExcept) : List (ℕ × List TrackPoint) :=
  (List.insertionSort (fun a b => a ≤ b)
      ((matchingPadPoints store padLineIds b).map Prod.fst).dedup).map
    (fun id => (id,
      ((matchingPadPoints store padLineIds b).filter (fun e => decide (e.1 = id))).map
        Prod.snd))

lemma mem_matchingPadPoints (store : List (ℕ × TrackPoint)) (padLineIds : List ℕ)
    (b : BboxWithExcept) (e : ℕ × TrackPoint) :
    e ∈ matchingPadPoints store padLineIds b ↔
      e ∈ store ∧ e.2.zoom ≤ b.zoom ∧ e.1 ∈ padLineIds ∧
        makeBboxCondition (some b) e.2.lat e.2.lon = true := by
  unfold matchingPadPoints
  rw [List.mem_filter]
  simp [and_assoc]

lemma matching_filter_eq (store : List (ℕ × TrackPoint)) (padLineIds : List ℕ)
    (b : BboxWithExcept) (id : ℕ) (hid : id ∈ padLineIds) :
    (matchingPadPoints store padLineIds b).filter (fun e => decide (e.1 = id)) =
      store.filter (fun e =>
        decide (e.1 = id) && decide (e.2.zoom ≤ b.zoom) &&
          makeBboxCondition (some b) e.2.lat e.2.lon) := by
  unfold matchingPadPoints
  rw [List.filter_filter]
  apply List.filter_congr
  intro e _
  by_cases h1 : e.1 = id <;>
    by_cases h2 : e.2.zoom ≤ b.zoom <;>
      by_cases h3 : makeBboxCondition (some b) e.2.lat e.2.lon = true <;>
        simp [h1, h2, h3, hid]

/-- C2 counterexample: the pad level query (getLinePointsForPad,
databaseBackendSequelize.js lines 881 to 904) has no order clause, so its
groups are not ordered ascending by idx: with line 1 stored as idx 5 before
idx 0, both at zoom 1 inside the bbox, the returned group for line 1 is the
storage order idx 5 then idx 0, which is not sorted by idx. -/
theorem getLinePointsForPad_group_not_ordered :
    (getLinePointsForPad [(1, ⟨0, 0, 1, 5, none⟩), (1, ⟨0, 0, 1, 0, none⟩)] [1]
        { toBbox := ⟨1, -1, -1, 1⟩, zoom := 10, except := none } =
      [(1, [⟨0, 0, 1, 5, none⟩, ⟨0, 0, 1, 0, none⟩])]) ∧
    ¬ ([⟨0, 0, 1, 5, none⟩, ⟨0, 0, 1, 0, none⟩] : List TrackPoint).Sorted idxLe :=
  ⟨by decide, by decide⟩

/-- C2 amended: a track point query for a single line with a bbox and a
maximum zoom returns exactly the stored points with zoom at most the bound
that lie inside the bbox, ordered ascending by idx; a query by pad returns
the matching points grouped by line id, each group being exactly the matching
points of that line in storage order, with no ordering guarantee; and on the
scenario line with points idx0 zoom1, idx1 zoom1, idx2 zoom10, the query at
zoom 5 returns only idx 0 and 1 while the query at zoom 15 returns all
three. -/
theorem queryPoints_exact_sorted_grouped :
    (∀ (line : List TrackPoint) (b : BboxWithZoom) (p : TrackPoint),
        p ∈ getLinePointsByBbox line (some { toBboxWithZoom := b, except := none }) ↔
          p ∈ line ∧ p.zoom ≤ b.zoom ∧ condLatLon b.toBbox p.lat p.lon = true) ∧
    (∀ (line : List TrackPoint) (bbox : Option BboxWithExcept),
        (getLinePointsByBbox line bbox).Sorted idxLe) ∧
    (∀ (store : List (ℕ × TrackPoint)) (padLineIds : List ℕ) (b : BboxWithExcept)
        (lineId : ℕ) (pts : List TrackPoint),
        (lineId, pts) ∈ getLinePointsForPad store padLineIds b ↔
          lineId ∈ padLineIds ∧ pts ≠ [] ∧
            pts = (store.filter (fun e =>
              decide (e.1 = lineId) && decide (e.2.zoom ≤ b.zoom) &&
                makeBboxCondition (some b) e.2.lat e.2.lon)).map Prod.snd) ∧
    ((getLinePointsByBbox [⟨0, 0, 1, 0, none⟩, ⟨1, 1, 1, 1, none⟩, ⟨0, 1, 10, 2, none⟩]
        (some { toBbox := ⟨1, 0, 0, 1⟩, zoom := 5, except := none })).map TrackPoint.idx
      = [0, 1]) ∧
    ((getLinePointsByBbox [⟨0, 0, 1, 0, none⟩, ⟨1, 1, 1, 1, none⟩, ⟨0, 1, 10, 2, none⟩]
        (some { toBbox := ⟨1, 0, 0, 1⟩, zoom := 15, except := none })).map TrackPoint.idx
      = [0, 1, 2]) := by
  refine ⟨?_, ?_, ?_, by decide, by decide⟩
  · intro line b p
    rw [mem_getLinePointsByBbox]
    simp only [makeBboxCondition, Bool.and_eq_true]
    constructor
    · rintro ⟨hm, ⟨hc, _⟩, hz⟩
      exact ⟨hm, hz, hc⟩
    · rintro ⟨hm, hz, hc⟩
      exact ⟨hm, ⟨hc, trivial⟩, hz⟩
  · intro line bbox
    exact sorted_getLinePointsByBbox line bbox
  · intro store padLineIds b lineId pts
    constructor
    · intro hmem
      unfold getLinePointsForPad at hmem
      obtain ⟨k, hk, heq⟩ := List.mem_map.mp hmem
      obtain ⟨hk1, hk2⟩ := Prod.mk.inj heq
      rw [(List.perm_insertionSort _ _).mem_iff, List.mem_dedup] at hk
      rw [hk1] at hk hk2
      obtain ⟨e, he, hefst⟩ := List.mem_map.mp hk
      have hid : lineId ∈ padLineIds := by
        have := (mem_matchingPadPoints store padLineIds b e).mp he
        rw [← hefst]
        exact this.2.2.1
      refine ⟨hid, ?_, ?_⟩
      · rw [← hk2]
        have hmemf : e ∈ (matchingPadPoints store padLineIds b).filter
            (fun e => decide (e.1 = lineId)) := by
          rw [List.mem_filter]
          exact ⟨he, by simp [hefst]⟩
        exact List.ne_nil_of_mem (List.mem_map_of_mem Prod.snd hmemf)
      · rw [← hk2, matching_filter_eq store padLineIds b lineId hid]
    · rintro ⟨hid, hne, hpts⟩
      have hfe : (store.filter (fun e =>
          decide (e.1 = lineId) && decide (e.2.zoom ≤ b.zoom) &&
            makeBboxCondition (some b) e.2.lat e.2.lon)) ≠ [] := by
        intro h0
        rw [h0] at hpts
        exact hne (by simpa using hpts)
      obtain ⟨e, he⟩ := List.exists_mem_of_ne_nil _ hfe
      rw [List.mem_filter] at he
      have he1 : e.1 = lineId := by
        have := he.2
        simp only [Bool.and_eq_true, decide_eq_true_eq] at this
        exact this.1.1
      have hematch : e ∈ matchingPadPoints store padLineIds b := by
        rw [mem_matchingPadPoints]
        have := he.2
        simp only [Bool.and_eq_true, decide_eq_true_eq] at this
        exact ⟨he.1, this.1.2, he1 ▸ hid, this.2⟩
      have hkey : lineId ∈ ((matchingPadPoints store padLineIds b).map Prod.fst).dedup := by
        rw [List.mem_dedup]
        exact List.mem_map.mpr ⟨e, hematch, he1⟩
      unfold getLinePointsForPad
      refine List.mem_map.mpr ⟨lineId, ?_, ?_⟩
      · rw [(List.perm_insertionSort _ _).mem_iff]
        exact hkey
      · rw [matching_filter_eq store padLineIds b lineId hid, ← hpts]

/-- Destroy step of setLinePoints (databaseBackendSequelize.js, line 520 and
line 861): delete every stored point of the line. The LinePoint table is
modelled as a map from line id to the list of stored points of that line. -/
def destroyLinePoints (store : ℕ → List TrackPoint) (lineId : ℕ) : ℕ → List TrackPoint :=
  fun i => if i = lineId then [] else store i

/-- Insert step of setLinePoints (databaseBackendSequelize.js, lines 521 to
526 and 863 to 868): append the given rows to the stored points of the
line. -/
def insertLinePoints (store : ℕ → List TrackPoint) (lineId : ℕ)
    (trackPoints : List TrackPoint) : ℕ → List TrackPoint :=
  fun i => if i = lineId then store i ++ trackPoints else store i

/-- setLinePoints: the state of the table after the destroy step and the
complete insert step. -/
def setLinePoints (store : ℕ → List TrackPoint) (lineId : ℕ)
    (trackPoints : List TrackPoint) : ℕ → List TrackPoint :=
  insertLinePoints (destroyLinePoints store lineId) lineId trackPoints

/-- Observable table states during setLinePoints: the initial state, then the
state after the destroy statement followed by each batched insert (the insert
is modelled at the finest granularity, one row per step, which covers every
batch boundary of the bulk create). -/
def setLinePointsSteps (store : ℕ → List TrackPoint) (lineId : ℕ)
    (trackPoints : List TrackPoint) : List (ℕ → List TrackPoint) :=
  store :: (List.range (trackPoints.length + 1)).map
    (fun n => insertLinePoints (destroyLinePoints store lineId) lineId (trackPoints.take n))

/-- C6: setLinePoints replaces the whole stored sequence of the line — the
final state holds exactly the given points for the line and leaves every other
line unchanged — and at every observable intermediate state every other line
is unchanged and the points of the written line are the old sequence or a
front part of the new one, so no reader ever observes a state holding both a
point that is only in the old sequence and a point that is only in the new
one. -/
theorem setLinePoints_replaces_atomically :
    ∀ (store : ℕ → List TrackPoint) (lineId : ℕ) (trackPoints : List TrackPoint),
      (setLinePoints store lineId trackPoints lineId = trackPoints) ∧
      (∀ i, i ≠ lineId → setLinePoints store lineId trackPoints i = store i) ∧
      ((setLinePointsSteps store lineId trackPoints).getLast? =
        some (setLinePoints store lineId trackPoints)) ∧
      (∀ s ∈ setLinePointsSteps store lineId trackPoints,
        ∀ i, i ≠ lineId → s i = store i) ∧
      (∀ s ∈ setLinePointsSteps store lineId trackPoints,
        s lineId = store lineId ∨ ∃ n, n ≤ trackPoints.length ∧ s lineId = trackPoints.take n) ∧
      (∀ s ∈ setLinePointsSteps store lineId trackPoints,
        ¬ ∃ pOld pNew, pOld ∈ s lineId ∧ pOld ∈ store lineId ∧ pOld ∉ trackPoints ∧
          pNew ∈ s lineId ∧ pNew ∈ trackPoints ∧ pNew ∉ store lineId) := by
  intro store lineId trackPoints
  have hstep : ∀ s ∈ setLinePointsSteps store lineId trackPoints,
      s = store ∨ ∃ n, n ≤ trackPoints.length ∧
        s = insertLinePoints (destroyLinePoints store lineId) lineId (trackPoints.take n) := by
    intro s hs
    rcases List.mem_cons.mp hs with h | h
    · exact Or.inl h
    · obtain ⟨n, hn, hsn⟩ := List.mem_map.mp h
      exact Or.inr ⟨n, Nat.lt_succ_iff.mp (List.mem_range.mp hn), hsn.symm⟩
  have htake : ∀ n,
      insertLinePoints (destroyLinePoints store lineId) lineId (trackPoints.take n) lineId =
        trackPoints.take n := by
    intro n
    simp [insertLinePoints, destroyLinePoints]
  refine ⟨?_, ?_, ?_, ?_, ?_, ?_⟩
  · simp [setLinePoints, insertLinePoints, destroyLinePoints]
  · intro i hi
    simp [setLinePoints, insertLinePoints, destroyLinePoints, hi]
  · unfold setLinePointsSteps
    rw [List.range_succ, List.map_append]
    rw [show (store :: (_ ++ _)) = ((store :: _) ++ _) from rfl, List.getLast?_append]
    simp [setLinePoints, List.take_length]
  · intro s hs i hi
    rcases hstep s hs with rfl | ⟨n, _, rfl⟩
    · rfl
    · simp [insertLinePoints, destroyLinePoints, hi]
  · intro s hs
    rcases hstep s hs with rfl | ⟨n, hn, rfl⟩
    · exact Or.inl rfl
    · exact Or.inr ⟨n, hn, htake n⟩
  · intro s hs
    rintro ⟨pOld, pNew, hOs, hOold, hOnotnew, hNs, hNnew, hNnotold⟩
    rcases hstep s hs with rfl | ⟨n, _, rfl⟩
    · exact hNnotold hNs
    · rw [htake n] at hOs
      exact hOnotnew (List.mem_of_mem_take hOs)

/-- C6 witness: the atomic replacement statements applied to a concrete store
holding two lines, overwriting line 1 with a two point sequence. -/
theorem setLinePoints_replaces_atomically_witness :
    ((setLinePoints (fun i => if i = 1 then [⟨1, 1, 1, 0, none⟩] else [⟨2, 2, 1, 0, none⟩]) 1
        [⟨3, 3, 1, 0, none⟩, ⟨4, 4, 1, 1, none⟩] 1) = [⟨3, 3, 1, 0, none⟩, ⟨4, 4, 1, 1, none⟩]) ∧
    (∀ i, i ≠ 1 →
      setLinePoints (fun i => if i = 1 then [⟨1, 1, 1, 0, none⟩] else [⟨2, 2, 1, 0, none⟩]) 1
        [⟨3, 3, 1, 0, none⟩, ⟨4, 4, 1, 1, none⟩] i =
        (fun i => if i = 1 then [⟨1, 1, 1, 0, none⟩] else [⟨2, 2, 1, 0, none⟩] : ℕ → List TrackPoint) i) ∧
    ((setLinePointsSteps (fun i => if i = 1 then [⟨1, 1, 1, 0, none⟩] else [⟨2, 2, 1, 0, none⟩]) 1
        [⟨3, 3, 1, 0, none⟩, ⟨4, 4, 1, 1, none⟩]).getLast? =
      some (setLinePoints (fun i => if i = 1 then [⟨1, 1, 1, 0, none⟩] else [⟨2, 2, 1, 0, none⟩]) 1
        [⟨3, 3, 1, 0, none⟩, ⟨4, 4, 1, 1, none⟩])) ∧
    (∀ s ∈ setLinePointsSteps (fun i => if i = 1 then [⟨1, 1, 1, 0, none⟩] else [⟨2, 2, 1, 0, none⟩]) 1
        [⟨3, 3, 1, 0, none⟩, ⟨4, 4, 1, 1, none⟩],
      ∀ i, i ≠ 1 → s i = (fun i => if i = 1 then [⟨1, 1, 1, 0, none⟩] else [⟨2, 2, 1, 0, none⟩] : ℕ → List TrackPoint) i) ∧
    (∀ s ∈ setLinePointsSteps (fun i => if i = 1 then [⟨1, 1, 1, 0, none⟩] else [⟨2, 2, 1, 0, none⟩]) 1
        [⟨3, 3, 1, 0, none⟩, ⟨4, 4, 1, 1, none⟩],
      s 1 = (fun i => if i = 1 then [⟨1, 1, 1, 0, none⟩] else [⟨2, 2, 1, 0, none⟩] : ℕ → List TrackPoint) 1 ∨
        ∃ n, n ≤ ([⟨3, 3, 1, 0, none⟩, ⟨4, 4, 1, 1, none⟩] : List TrackPoint).length ∧
          s 1 = ([⟨3, 3, 1, 0, none⟩, ⟨4, 4, 1, 1, none⟩] : List TrackPoint).take n) ∧
    (∀ s ∈ setLinePointsSteps (fun i => if i = 1 then [⟨1, 1, 1, 0, none⟩] else [⟨2, 2, 1, 0, none⟩]) 1
        [⟨3, 3, 1, 0, none⟩, ⟨4, 4, 1, 1, none⟩],
      ¬ ∃ pOld pNew, pOld ∈ s 1 ∧
          pOld ∈ (fun i => if i = 1 then [⟨1, 1, 1, 0, none⟩] else [⟨2, 2, 1, 0, none⟩] : ℕ → List TrackPoint) 1 ∧
          pOld ∉ ([⟨3, 3, 1, 0, none⟩, ⟨4, 4, 1, 1, none⟩] : List TrackPoint) ∧
          pNew ∈ s 1 ∧ pNew ∈ ([⟨3, 3, 1, 0, none⟩, ⟨4, 4, 1, 1, none⟩] : List TrackPoint) ∧
          pNew ∉ (fun i => if i = 1 then [⟨1, 1, 1, 0, none⟩] else [⟨2, 2, 1, 0, none⟩] : ℕ → List TrackPoint) 1) :=
  setLinePoints_replaces_atomically
    (fun i => if i = 1 then [⟨1, 1, 1, 0, none⟩] else [⟨2, 2, 1, 0, none⟩]) 1
    [⟨3, 3, 1, 0, none⟩, ⟨4, 4, 1, 1, none⟩]

/-- TrackPoints object of the client (part_000, lines 39 to 42): a sparse
mapping from idx to point, modelled as the list of its integer keyed entries,
plus the derived length field. -/
structure TrackPoints where
  entries : List (ℕ × TrackPoint)
  length : ℕ
  deriving DecidableEq

/-- Read of a key of the mapping: the value of the first entry with that
key. -/
def tpGet (m : List (ℕ × TrackPoint)) (i : ℕ) : Option TrackPoint :=
  match m with
  | [] => none
  | e :: es => if e.1 = i then some e.2 else tpGet es i

/-- Assignment ret[idx] = point on a JS object with integer keys: replaces
the value when the key is present, otherwise adds the key. -/
def jsSetIdx (m : List (ℕ × TrackPoint)) (p : TrackPoint) : List (ℕ × TrackPoint) :=
  if m.any (fun e => decide (e.1 = p.idx)) then
    m.map (fun e => if e.1 = p.idx then (e.1, p) else e)
  else m ++ [(p.idx, p)]

/-- Derived length of a TrackPoints object (part_000, lines 570 to 574): zero
maximized with idx + 1 over all keys of the object. -/
def tpLength (m : List (ℕ × TrackPoint)) : ℕ :=
  m.foldl (fun acc e => max acc (e.1 + 1)) 0

/-- mergeTrackPoints of the client (part_000, lines 563 to 577): copy the
existing mapping, write every incoming point at its idx, recompute the
length. -/
def mergeTrackPoints (existing : List (ℕ × TrackPoint)) (incoming : List TrackPoint) :
    TrackPoints :=
  { entries := incoming.foldl jsSetIdx existing,
    length := tpLength (incoming.foldl jsSetIdx existing) }

/-- Last point of a batch carrying a given idx. -/
def lastWithIdx (incoming : List TrackPoint) (i : ℕ) : Option TrackPoint :=
  List.find? (fun p => decide (p.idx = i)) incoming.reverse

lemma tpGet_append (m1 m2 : List (ℕ × TrackPoint)) (i : ℕ) :
    tpGet (m1 ++ m2) i = (tpGet m1 i).or (tpGet m2 i) := by
  induction m1 with
  | nil => simp [tpGet]
  | cons e m1 ih =>
    by_cases h : e.1 = i <;> simp [tpGet, h, ih]

lemma tpGet_none_of_not_any (m : List (ℕ × TrackPoint)) (k : ℕ)
    (h : m.any (fun e => decide (e.1 = k)) = false) : tpGet m k = none := by
  induction m with
  | nil => rfl
  | cons e m ih =>
    simp only [List.any_cons, Bool.or_eq_false_iff, decide_eq_false_iff_not] at h
    simp [tpGet, h.1, ih h.2]

lemma tpGet_map_replace_ne (m : List (ℕ × TrackPoint)) (p : TrackPoint) (i : ℕ)
    (hne : i ≠ p.idx) :
    tpGet (m.map (fun e => if e.1 = p.idx then (e.1, p) else e)) i = tpGet m i := by
  induction m with
  | nil => rfl
  | cons e m ih =>
    by_cases he : e.1 = p.idx
    · have hei : ¬ e.1 = i := by rw [he]; exact fun hx => hne hx.symm
      simp [tpGet, if_pos he, hei, ih]
    · by_cases hei : e.1 = i <;> simp [tpGet, if_neg he, hei, hne, ih]

lemma tpGet_map_replace_hit (m : List (ℕ × TrackPoint)) (p : TrackPoint)
    (hany : m.any (fun e => decide (e.1 = p.idx)) = true) :
    tpGet (m.map (fun e => if e.1 = p.idx then (e.1, p) else e)) p.idx = some p := by
  induction m with
  | nil => simp at hany
  | cons e m ih =>
    simp only [List.any_cons, Bool.or_eq_true, decide_eq_true_eq] at hany
    by_cases he : e.1 = p.idx
    · simp [tpGet, if_pos he, he]
    · have : m.any (fun e => decide (e.1 = p.idx)) = true := by
        rcases hany with h | h
        · exact absurd h he
        · exact h
      simp [tpGet, if_neg he, he, ih this]

lemma tpGet_jsSetIdx (m : List (ℕ × TrackPoint)) (p : TrackPoint) (i : ℕ) :
    tpGet (jsSetIdx m p) i = if i = p.idx then some p else tpGet m i := by
  unfold jsSetIdx
  by_cases hany : m.any (fun e => decide (e.1 = p.idx)) = true
  · rw [if_pos hany]
    by_cases hi : i = p.idx
    · rw [if_pos hi, hi, tpGet_map_replace_hit m p hany]
    · rw [if_neg hi, tpGet_map_replace_ne m p i hi]
  · rw [if_neg hany, tpGet_append]
    by_cases hi : i = p.idx
    · rw [if_pos hi, hi, tpGet_none_of_not_any m p.idx (Bool.eq_false_iff.mpr hany)]
      simp [tpGet]
    · rw [if_neg hi]
      have hpi : ¬ p.idx = i := fun hx => hi hx.symm
      have : tpGet [(p.idx, p)] i = none := by
        simp [tpGet, hpi]
      rw [this, Option.or_none]

lemma tpGet_foldl_jsSetIdx (incoming : List TrackPoint) (m : List (ℕ × TrackPoint)) (i : ℕ) :
    tpGet (incoming.foldl jsSetIdx m) i = (lastWithIdx incoming i).or (tpGet m i) := by
  induction incoming generalizing m with
  | nil => simp [lastWithIdx, List.find?]
  | cons p ps ih =>
    rw [List.foldl_cons, ih, tpGet_jsSetIdx]
    have hlast : lastWithIdx (p :: ps) i =
        (lastWithIdx ps i).or (if p.idx = i then some p else none) := by
      unfold lastWithIdx
      rw [List.reverse_cons, List.find?_append]
      by_cases hp : p.idx = i <;> simp [List.find?, hp]
    rw [hlast, Option.or_assoc]
    congr 1
    by_cases hi : i = p.idx
    · simp [hi]
    · have hpi : ¬ p.idx = i := fun hx => hi hx.symm
      simp [hpi, hi]

lemma lastWithIdx_isSome (incoming : List TrackPoint) (i : ℕ) :
    (lastWithIdx incoming i).isSome = true ↔ i ∈ incoming.map TrackPoint.idx := by
  unfold lastWithIdx
  rw [List.find?_isSome]
  constructor
  · rintro ⟨p, hp, hpi⟩
    rw [List.mem_reverse] at hp
    exact List.mem_map.mpr ⟨p, hp, of_decide_eq_true hpi⟩
  · intro h
    obtain ⟨p, hp, hpi⟩ := List.mem_map.mp h
    exact ⟨p, List.mem_reverse.mpr hp, decide_eq_true hpi⟩

/-- C5: merging two batches with disjoint idx sets into the empty mapping in
two steps equals merging their concatenation in one step; when an idx occurs
in both batches, the point stored at it is the last point of the later batch
with that idx; and a merge never removes a point — every idx mapped before
the merge is still mapped afterwards. -/
theorem mergeTrackPoints_merge_laws :
    (∀ P1 P2 : List TrackPoint,
        (∀ i ∈ P1.map TrackPoint.idx, i ∉ P2.map TrackPoint.idx) →
          mergeTrackPoints (mergeTrackPoints [] P1).entries P2 =
            mergeTrackPoints [] (P1 ++ P2)) ∧
    (∀ (P1 P2 : List TrackPoint) (i : ℕ),
        i ∈ P1.map TrackPoint.idx → i ∈ P2.map TrackPoint.idx →
          tpGet (mergeTrackPoints (mergeTrackPoints [] P1).entries P2).entries i =
            lastWithIdx P2 i) ∧
    (∀ (existing : List (ℕ × TrackPoint)) (P : List TrackPoint) (i : ℕ),
        (tpGet existing i).isSome = true →
          (tpGet (mergeTrackPoints existing P).entries i).isSome = true) := by
  refine ⟨?_, ?_, ?_⟩
  · intro P1 P2 _
    simp [mergeTrackPoints, List.foldl_append]
  · intro P1 P2 i _ h2
    obtain ⟨q, hq⟩ := Option.isSome_iff_exists.mp ((lastWithIdx_isSome P2 i).mpr h2)
    simp [mergeTrackPoints, tpGet_foldl_jsSetIdx, hq]
  · intro existing P i h
    simp only [mergeTrackPoints, tpGet_foldl_jsSetIdx]
    cases hl : lastWithIdx P i <;> simp [Option.or, hl, h]

/-- C5 witness: the three merge laws at concrete batches — disjoint batches
with idx 0 and idx 1, two batches sharing idx 5 where the later point wins,
and a merge over an existing mapping holding idx 7. -/
theorem mergeTrackPoints_merge_laws_witness :
    (mergeTrackPoints (mergeTrackPoints [] [⟨0, 0, 1, 0, none⟩]).entries [⟨1, 1, 1, 1, none⟩] =
      mergeTrackPoints [] ([⟨0, 0, 1, 0, none⟩] ++ [⟨1, 1, 1, 1, none⟩])) ∧
    (tpGet (mergeTrackPoints (mergeTrackPoints [] [⟨0, 0, 1, 5, none⟩]).entries
        [⟨2, 2, 1, 5, none⟩, ⟨3, 3, 1, 5, none⟩]).entries 5 =
      lastWithIdx [⟨2, 2, 1, 5, none⟩, ⟨3, 3, 1, 5, none⟩] 5) ∧
    ((tpGet (mergeTrackPoints [(7, ⟨4, 4, 1, 7, none⟩)] [⟨9, 9, 1, 2, none⟩]).entries 7).isSome
      = true) :=
  ⟨mergeTrackPoints_merge_laws.1 [⟨0, 0, 1, 0, none⟩] [⟨1, 1, 1, 1, none⟩] (by decide),
   mergeTrackPoints_merge_laws.2.1 [⟨0, 0, 1, 5, none⟩]
     [⟨2, 2, 1, 5, none⟩, ⟨3, 3, 1, 5, none⟩] 5 (by decide) (by decide),
   mergeTrackPoints_merge_laws.2.2 [(7, ⟨4, 4, 1, 7, none⟩)] [⟨9, 9, 1, 2, none⟩] 7 (by decide)⟩

/-- PadData slice relevant to the default view invariant. -/
structure PadData where
  id : ℕ
  defaultViewId : Option ℕ
  deriving DecidableEq

/-- View object held in the views collection of the client. -/
structure View where
  id : ℕ
  deriving DecidableEq

/-- Client state slice touched by the deleteView handler: the views
collection and the pad data. -/
structure ClientViewState where
  views : List (ℕ × View)
  padData : Option PadData
  deriving DecidableEq

/-- Read of a key of the views collection: the value of the first entry with
that key. -/
def viewGet (m : List (ℕ × View)) (i : ℕ) : Option View :=
  match m with
  | [] => none
  | e :: es => if e.1 = i then some e.2 else viewGet es i

/-- deleteView handler of the client (part_000, lines 277 to 283): delete the
view by id from the views collection; when padData is set and its
defaultViewId equals the deleted id, null the defaultViewId. -/
def handleDeleteView (s : ClientViewState) (deletedId : ℕ) : ClientViewState :=
  { views := s.views.filter (fun e => !decide (e.1 = deletedId)),
    padData :=
      match s.padData with
      | none => none
      | some pd =>
        if pd.defaultViewId = some deletedId then some { pd with defaultViewId := none }
        else some pd }

lemma viewGet_filter_self (m : List (ℕ × View)) (d : ℕ) :
    viewGet (m.filter (fun e => !decide (e.1 = d))) d = none := by
  induction m with
  | nil => rfl
  | cons e m ih =>
    by_cases h : e.1 = d
    · simp [List.filter_cons, h, ih]
    · simp [List.filter_cons, h, viewGet, ih]

lemma viewGet_filter_other (m : List (ℕ × View)) (d k : ℕ) (hk : k ≠ d) :
    viewGet (m.filter (fun e => !decide (e.1 = d))) k = viewGet m k := by
  induction m with
  | nil => rfl
  | cons e m ih =>
    by_cases h : e.1 = d
    · have hdk : d ≠ k := Ne.symm hk
      simp [List.filter_cons, h, viewGet, hdk, ih]
    · by_cases hek : e.1 = k <;>
        simp [List.filter_cons, h, viewGet, hek, hk, Ne.symm hk, ih]

/-- C10: the deleteView handler removes the view from the collection, nulls
defaultViewId exactly when it referred to the deleted view, leaves padData
unchanged for every other view id, and — given that defaultViewId referred to
a stored view beforehand — preserves the invariant that defaultViewId never
refers to a deleted view. -/
theorem deleteView_preserves_default_invariant (s : ClientViewState) (d : ℕ)
    (hinv : ∀ pd v, s.padData = some pd → pd.defaultViewId = some v →
      (viewGet s.views v).isSome = true) :
    (viewGet (handleDeleteView s d).views d = none) ∧
    (∀ k, k ≠ d → viewGet (handleDeleteView s d).views k = viewGet s.views k) ∧
    (∀ pd, s.padData = some pd → pd.defaultViewId = some d →
      (handleDeleteView s d).padData = some { pd with defaultViewId := none }) ∧
    (∀ pd, s.padData = some pd → pd.defaultViewId ≠ some d →
      (handleDeleteView s d).padData = some pd) ∧
    (s.padData = none → (handleDeleteView s d).padData = none) ∧
    (∀ pd v, (handleDeleteView s d).padData = some pd → pd.defaultViewId = some v →
      v ≠ d ∧ (viewGet (handleDeleteView s d).views v).isSome = true) := by
  refine ⟨viewGet_filter_self s.views d, ?_, ?_, ?_, ?_, ?_⟩
  · intro k hk
    exact viewGet_filter_other s.views d k hk
  · intro pd hpd hdef
    simp [handleDeleteView, hpd, hdef]
  · intro pd hpd hdef
    simp [handleDeleteView, hpd, hdef]
  · intro hpd
    simp [handleDeleteView, hpd]
  · intro pd v hpd hdef
    cases hs : s.padData with
    | none =>
      rw [show (handleDeleteView s d).padData = none by simp [handleDeleteView, hs]] at hpd
      exact absurd hpd (by simp)
    | some pd0 =>
      by_cases h0 : pd0.defaultViewId = some d
      · rw [show (handleDeleteView s d).padData = some { pd0 with defaultViewId := none } by
          simp [handleDeleteView, hs, h0]] at hpd
        rw [Option.some_inj] at hpd
        rw [← hpd] at hdef
        exact absurd hdef (by simp)
      · rw [show (handleDeleteView s d).padData = some pd0 by
          simp [handleDeleteView, hs, h0]] at hpd
        rw [Option.some_inj] at hpd
        subst hpd
        have hvd : v ≠ d := by
          intro hvd
          rw [hvd] at hdef
          exact h0 hdef
        refine ⟨hvd, ?_⟩
        have hview : (handleDeleteView s d).views =
            s.views.filter (fun e => !decide (e.1 = d)) := rfl
        rw [hview, viewGet_filter_other s.views d v hvd]
        exact hinv pd0 v hs hdef

/-- C10 witness: a state with views 1 and 2 where view 1 is the default,
deleting view 1. -/
theorem deleteView_preserves_default_invariant_witness :
    (viewGet (handleDeleteView ⟨[(1, ⟨1⟩), (2, ⟨2⟩)], some ⟨0, some 1⟩⟩ 1).views 1 = none) ∧
    (∀ k, k ≠ 1 → viewGet (handleDeleteView ⟨[(1, ⟨1⟩), (2, ⟨2⟩)], some ⟨0, some 1⟩⟩ 1).views k =
      viewGet [(1, ⟨1⟩), (2, ⟨2⟩)] k) ∧
    (∀ pd, (some ⟨0, some 1⟩ : Option PadData) = some pd → pd.defaultViewId = some 1 →
      (handleDeleteView ⟨[(1, ⟨1⟩), (2, ⟨2⟩)], some ⟨0, some 1⟩⟩ 1).padData =
        some { pd with defaultViewId := none }) ∧
    (∀ pd, (some ⟨0, some 1⟩ : Option PadData) = some pd → pd.defaultViewId ≠ some 1 →
      (handleDeleteView ⟨[(1, ⟨1⟩), (2, ⟨2⟩)], some ⟨0, some 1⟩⟩ 1).padData = some pd) ∧
    ((some ⟨0, some 1⟩ : Option PadData) = none →
      (handleDeleteView ⟨[(1, ⟨1⟩), (2, ⟨2⟩)], some ⟨0, some 1⟩⟩ 1).padData = none) ∧
    (∀ pd v, (handleDeleteView ⟨[(1, ⟨1⟩), (2, ⟨2⟩)], some ⟨0, some 1⟩⟩ 1).padData = some pd →
      pd.defaultViewId = some v →
      v ≠ 1 ∧ (viewGet (handleDeleteView ⟨[(1, ⟨1⟩), (2, ⟨2⟩)], some ⟨0, some 1⟩⟩ 1).views v).isSome = true) :=
  deleteView_preserves_default_invariant ⟨[(1, ⟨1⟩), (2, ⟨2⟩)], some ⟨0, some 1⟩⟩ 1
    (by
      intro pd v hpd hv
      injection hpd with h1
      rw [← h1] at hv
      injection hv with h2
      rw [← h2]
      decide)

/-- Error raised for a malformed viewport bbox. -/
inductive UpdateBboxError
  | invalidBbox
  deriving DecidableEq

/-- Modelled from the spec: the server side of updateBbox (spec section 4.1,
ViewportManager), whose socket handler is not among the provided sources. Per
the spec, a malformed bbox — left or right outside [-180, 180], or
top < bottom — fails with InvalidBboxError and the server side viewport is
retained unchanged; a well formed bbox becomes the stored viewport. -/
def serverUpdateBbox (serverBbox : Option BboxWithZoom) (b : BboxWithZoom) :
    Option BboxWithZoom × Option UpdateBboxError :=
  if b.left < -180 ∨ 180 < b.left ∨ b.right < -180 ∨ 180 < b.right ∨ b.top < b.bottom then
    (serverBbox, some UpdateBboxError.invalidBbox)
  else (some b, none)

/-- Client state slice touched by updateBbox: the locally stored bbox. -/
structure ClientBboxState where
  bbox : Option BboxWithZoom
  deriving DecidableEq

/-- updateBbox of the client (part_000, lines 342 to 346): the client stores
the new bbox first and then emits the request; when the server rejects, the
error is surfaced but the locally stored bbox keeps the attempted value.
Returns the new client state, the server side viewport and the error. -/
def clientUpdateBbox (cs : ClientBboxState) (serverBbox : Option BboxWithZoom)
    (b : BboxWithZoom) : ClientBboxState × Option BboxWithZoom × Option UpdateBboxError :=
  let cs2 : ClientBboxState := { cs with bbox := some b }
  let r := serverUpdateBbox serverBbox b
  (cs2, r.1, r.2)

/-- C7 counterexample: with the previously stored viewport (top 1, bottom 0,
left 0, right 1, zoom 10) and the malformed bbox with left = 200, the call
fails with InvalidBboxError, yet the stored client viewport is not retained
unchanged: it now holds the malformed bbox. -/
theorem updateBbox_client_viewport_not_retained :
    (clientUpdateBbox ⟨some ⟨⟨1, 0, 0, 1⟩, 10⟩⟩ (some ⟨⟨1, 0, 0, 1⟩, 10⟩)
        ⟨⟨1, 0, 200, 1⟩, 10⟩).2.2 = some UpdateBboxError.invalidBbox ∧
    (clientUpdateBbox ⟨some ⟨⟨1, 0, 0, 1⟩, 10⟩⟩ (some ⟨⟨1, 0, 0, 1⟩, 10⟩)
        ⟨⟨1, 0, 200, 1⟩, 10⟩).1.bbox ≠ some ⟨⟨1, 0, 0, 1⟩, 10⟩ := by
  refine ⟨by decide, by decide⟩

/-- C7 amended: for every client state, server viewport and malformed bbox
(left or right outside [-180, 180], or top < bottom), updateBbox fails with
InvalidBboxError and the server side viewport is retained unchanged, while
the locally stored client bbox is overwritten with the attempted bbox before
the request is sent. -/
theorem updateBbox_invalid_retains_server_viewport
    (cs : ClientBboxState) (sv : Option BboxWithZoom) (b : BboxWithZoom)
    (hbad : b.left < -180 ∨ 180 < b.left ∨ b.right < -180 ∨ 180 < b.right ∨ b.top < b.bottom) :
    (clientUpdateBbox cs sv b).2.2 = some UpdateBboxError.invalidBbox ∧
    (clientUpdateBbox cs sv b).2.1 = sv ∧
    (clientUpdateBbox cs sv b).1.bbox = some b := by
  unfold clientUpdateBbox serverUpdateBbox
  rw [if_pos hbad]
  exact ⟨rfl, rfl, rfl⟩

/-- C7 witness: the amended statement at an empty client state, no server
viewport, and the malformed bbox with left = 200. -/
theorem updateBbox_invalid_retains_server_viewport_witness :
    (clientUpdateBbox ⟨none⟩ none ⟨⟨1, 0, 200, 1⟩, 10⟩).2.2 =
      some UpdateBboxError.invalidBbox ∧
    (clientUpdateBbox ⟨none⟩ none ⟨⟨1, 0, 200, 1⟩, 10⟩).2.1 = none ∧
    (clientUpdateBbox ⟨none⟩ none ⟨⟨1, 0, 200, 1⟩, 10⟩).1.bbox = some ⟨⟨1, 0, 200, 1⟩, 10⟩ :=
  updateBbox_invalid_retains_server_viewport ⟨none⟩ none ⟨⟨1, 0, 200, 1⟩, 10⟩ (by decide)

/-- Errors surfaced to a mutation caller. -/
inductive DbError
  | backendFailure (code : ℕ)
  | noNameProvided
  deriving DecidableEq

/-- Kinds of events fanned out to the pad listeners. -/
inductive EventKind
  | marker
  | deleteMarker
  | line
  | deleteLine
  | view
  | deleteView
  deriving DecidableEq

/-- Persisted object as the backend callbacks of database.js return it: its
id, its owning pad and, for markers, a position. -/
structure StoredObject where
  id : ℕ
  pad : ℕ
  position : Option (ℚ × ℚ) := none
  deriving DecidableEq

/-- Notification handed to notifyPadListeners. -/
structure Notification where
  padId : ℕ
  position : Option (ℚ × ℚ)
  event : EventKind
  objectId : ℕ
  deriving DecidableEq

/-- JS String.trim over a list of characters. -/
def trimChars (s : List Char) : List Char :=
  ((s.dropWhile Char.isWhitespace).reverse.dropWhile Char.isWhitespace).reverse

/-- Name check of createView and updateView (database.js, lines 28 and 41):
the name is missing when it is null or its trimmed length is zero. -/
def viewNameMissing (name : Option (List Char)) : Bool :=
  match name with
  | none => true
  | some s => decide (trimChars s = [])

/-- createMarker (database.js, lines 67 to 75): on backend failure the error
is returned to the caller and nothing is notified; on success the marker
event is sent to the listeners of the pad. -/
def createMarker (padId : ℕ) (backendResult : Except DbError StoredObject) :
    Except DbError StoredObject × List Notification :=
  match backendResult with
  | Except.error e => (Except.error e, [])
  | Except.ok d => (Except.ok d, [Notification.mk padId d.position EventKind.marker d.id])

/-- updateMarker (database.js, lines 77 to 85). -/
def updateMarker (backendResult : Except DbError StoredObject) :
    Except DbError StoredObject × List Notification :=
  match backendResult with
  | Except.error e => (Except.error e, [])
  | Except.ok d => (Except.ok d, [Notification.mk d.pad d.position EventKind.marker d.id])

/-- deleteMarker (database.js, lines 87 to 95): the notification payload only
carries the id. -/
def deleteMarker (backendResult : Except DbError StoredObject) :
    Except DbError StoredObject × List Notification :=
  match backendResult with
  | Except.error e => (Except.error e, [])
  | Except.ok d => (Except.ok d, [Notification.mk d.pad d.position EventKind.deleteMarker d.id])

/-- createLine (database.js, lines 101 to 110): the notification carries no
position (left as a todo in the source). -/
def createLine (backendResult : Except DbError StoredObject) :
    Except DbError StoredObject × List Notification :=
  match backendResult with
  | Except.error e => (Except.error e, [])
  | Except.ok d => (Except.ok d, [Notification.mk d.pad none EventKind.line d.id])

/-- updateLine (database.js, lines 112 to 121). -/
def updateLine (backendResult : Except DbError StoredObject) :
    Except DbError StoredObject × List Notification :=
  match backendResult with
  | Except.error e => (Except.error e, [])
  | Except.ok d => (Except.ok d, [Notification.mk d.pad none EventKind.line d.id])

/-- deleteLine (database.js, lines 123 to 132). -/
def deleteLine (backendResult : Except DbError StoredObject) :
    Except DbError StoredObject × List Notification :=
  match backendResult with
  | Except.error e => (Except.error e, [])
  | Except.ok d => (Except.ok d, [Notification.mk d.pad none EventKind.deleteLine d.id])

/-- createView (database.js, lines 27 to 38): an empty or missing name fails
before the backend is consulted; otherwise as the other mutations. -/
def createView (name : Option (List Char)) (backendResult : Except DbError StoredObject) :
    Except DbError StoredObject × List Notification :=
  if viewNameMissing name then (Except.error DbError.noNameProvided, [])
  else
    match backendResult with
    | Except.error e => (Except.error e, [])
    | Except.ok d => (Except.ok d, [Notification.mk d.pad none EventKind.view d.id])

/-- updateView (database.js, lines 40 to 51): same validation and shape as
createView. -/
def updateView (name : Option (List Char)) (backendResult : Except DbError StoredObject) :
    Except DbError StoredObject × List Notification :=
  if viewNameMissing name then (Except.error DbError.noNameProvided, [])
  else
    match backendResult with
    | Except.error e => (Except.error e, [])
    | Except.ok d => (Except.ok d, [Notification.mk d.pad none EventKind.view d.id])

/-- deleteView (database.js, lines 53 to 61). -/
def deleteView (backendResult : Except DbError StoredObject) :
    Except DbError StoredObject × List Notification :=
  match backendResult with
  | Except.error e => (Except.error e, [])
  | Except.ok d => (Except.ok d, [Notification.mk d.pad none EventKind.deleteView d.id])

/-- C8: every marker, line and view mutation of database.js notifies the pad
listeners exactly when the persistence write succeeds: on backend failure the
error goes back to that caller alone and no notification is emitted; on
success exactly one notification is emitted; the view mutations with a
missing name fail before any write or notification. -/
theorem mutation_broadcast_iff_persisted :
    (∀ p e, createMarker p (Except.error e) = (Except.error e, [])) ∧
    (∀ p d, createMarker p (Except.ok d) = (Except.ok d,
      [{ padId := p, position := d.position, event := EventKind.marker, objectId := d.id }])) ∧
    (∀ e, updateMarker (Except.error e) = (Except.error e, [])) ∧
    (∀ d, updateMarker (Except.ok d) = (Except.ok d,
      [{ padId := d.pad, position := d.position, event := EventKind.marker, objectId := d.id }])) ∧
    (∀ e, deleteMarker (Except.error e) = (Except.error e, [])) ∧
    (∀ d, deleteMarker (Except.ok d) = (Except.ok d,
      [{ padId := d.pad, position := d.position, event := EventKind.deleteMarker, objectId := d.id }])) ∧
    (∀ e, createLine (Except.error e) = (Except.error e, [])) ∧
    (∀ d, createLine (Except.ok d) = (Except.ok d,
      [{ padId := d.pad, position := none, event := EventKind.line, objectId := d.id }])) ∧
    (∀ e, updateLine (Except.error e) = (Except.error e, [])) ∧
    (∀ d, updateLine (Except.ok d) = (Except.ok d,
      [{ padId := d.pad, position := none, event := EventKind.line, objectId := d.id }])) ∧
    (∀ e, deleteLine (Except.error e) = (Except.error e, [])) ∧
    (∀ d, deleteLine (Except.ok d) = (Except.ok d,
      [{ padId := d.pad, position := none, event := EventKind.deleteLine, objectId := d.id }])) ∧
    (∀ n r, viewNameMissing n = true →
      createView n r = (Except.error DbError.noNameProvided, [])) ∧
    (∀ n e, viewNameMissing n = false → createView n (Except.error e) = (Except.error e, [])) ∧
    (∀ n d, viewNameMissing n = false → createView n (Except.ok d) = (Except.ok d,
      [{ padId := d.pad, position := none, event := EventKind.view, objectId := d.id }])) ∧
    (∀ n r, viewNameMissing n = true →
      updateView n r = (Except.error DbError.noNameProvided, [])) ∧
    (∀ n e, viewNameMissing n = false → updateView n (Except.error e) = (Except.error e, [])) ∧
    (∀ n d, viewNameMissing n = false → updateView n (Except.ok d) = (Except.ok d,
      [{ padId := d.pad, position := none, event := EventKind.view, objectId := d.id }])) ∧
    (∀ e, deleteView (Except.error e) = (Except.error e, [])) ∧
    (∀ d, deleteView (Except.ok d) = (Except.ok d,
      [{ padId := d.pad, position := none, event := EventKind.deleteView, objectId := d.id }])) := by
  refine ⟨fun _ _ => rfl, fun _ _ => rfl, fun _ => rfl, fun _ => rfl, fun _ => rfl,
    fun _ => rfl, fun _ => rfl, fun _ => rfl, fun _ => rfl, fun _ => rfl, fun _ => rfl,
    fun _ => rfl, ?_, ?_, ?_, ?_, ?_, ?_, fun _ => rfl, fun _ => rfl⟩ <;>
    intro n x h <;> simp [createView, updateView, h]

/-- C8 witness: the broadcast contract at a concrete marker and a concrete
view without a name. -/
theorem mutation_broadcast_iff_persisted_witness :
    (createMarker 3 (Except.error (DbError.backendFailure 7)) =
      (Except.error (DbError.backendFailure 7), [])) ∧
    (createMarker 3 (Except.ok ⟨4, 3, some (1, 2)⟩) = (Except.ok ⟨4, 3, some (1, 2)⟩,
      [{ padId := 3, position := some (1, 2), event := EventKind.marker, objectId := 4 }])) ∧
    (createView none (Except.ok ⟨5, 3, none⟩) = (Except.error DbError.noNameProvided, [])) :=
  ⟨mutation_broadcast_iff_persisted.1 3 (DbError.backendFailure 7),
   mutation_broadcast_iff_persisted.2.1 3 ⟨4, 3, some (1, 2)⟩,
   mutation_broadcast_iff_persisted.2.2.2.2.2.2.2.2.2.2.2.2.1 none
     (Except.ok ⟨5, 3, none⟩) (by decide)⟩

/-- getPadData (database.js, lines 4 to 11): look the pad up; a lookup error
or a found row is passed through; a successful lookup that finds no row falls
back to creating the pad with that id, whose outcome is returned. -/
def getPadData (lookupResult : Except DbError (Option StoredObject))
    (createResult : Except DbError StoredObject) : Except DbError (Option StoredObject) :=
  match lookupResult with
  | Except.error e => Except.error e
  | Except.ok (some d) => Except.ok (some d)
  | Except.ok none =>
    match createResult with
    | Except.error e => Except.error e
    | Except.ok d => Except.ok (some d)

/-- C9: getPadData never reports a not found result: it always returns an
error or a pad; a lookup that finds no row triggers pad creation whose result
is passed through, and an error is returned only when the lookup or the
creation itself fails. -/
theorem getPadData_never_not_found :
    (∀ lookupResult createResult,
        (∃ e, getPadData lookupResult createResult = Except.error e) ∨
        (∃ d, getPadData lookupResult createResult = Except.ok (some d))) ∧
    (∀ c e, getPadData (Except.error e) c = Except.error e) ∧
    (∀ c d, getPadData (Except.ok (some d)) c = Except.ok (some d)) ∧
    (∀ d, getPadData (Except.ok none) (Except.ok d) = Except.ok (some d)) ∧
    (∀ e, getPadData (Except.ok none) (Except.error e) = Except.error e) := by
  refine ⟨?_, fun _ _ => rfl, fun _ _ => rfl, fun _ => rfl, fun _ => rfl⟩
  intro lookupResult createResult
  match lookupResult, createResult with
  | Except.error e, _ => exact Or.inl ⟨e, rfl⟩
  | Except.ok (some d), _ => exact Or.inr ⟨d, rfl⟩
  | Except.ok none, Except.error e => exact Or.inl ⟨e, rfl⟩
  | Except.ok none, Except.ok d => exact Or.inr ⟨d, rfl⟩

/-- C9 witness: getPadData at a lookup that finds no row and a creation that
succeeds returns the created pad. -/
theorem getPadData_never_not_found_witness :
    getPadData (Except.ok none) (Except.ok ⟨1, 1, none⟩) = Except.ok (some ⟨1, 1, none⟩) :=
  getPadData_never_not_found.2.2.2.1 ⟨1, 1, none⟩
